import Mathlib

/-
Verification of gpio_to_uinput (src/gpio_to_uinput.cpp).

Shallow embedding: the pure decision logic of the tool is translated into
executable Lean definitions. Machine integers (uint16_t, non-negative int
intermediates) are modelled as Nat, with an explicit % 65536 wherever the
source performs a narrowing cast to uint16_t that can actually change the
value. Side effects (writes to uinput, stderr logging, exits) are modelled
as explicit output values.
-/

namespace GpioToUinput

/-! ### Userspace debounce (main loop, gpio_to_uinput.cpp lines 1177-1185)

The C source keeps a map last_accept_ns from line offset to the timestamp of
the last accepted edge. For a single line, one event is processed as:

  uint64_t ts = e.timestamp_ns;
  auto lt = last_accept_ns.find(off);
  if (debounce_ns > 0 && lt != last_accept_ns.end()) {
    if (ts >= lt->second && (ts - lt->second) < debounce_ns) continue;
  }
  last_accept_ns[off] = ts;

The per-line state is an Option Nat (none = no record yet). The step returns
(accepted?, new record). -/

def debounceStep (dns : Nat) (last : Option Nat) (ts : Nat) : Bool × Option Nat :=
  match last with
  | some l => if 0 < dns ∧ l ≤ ts ∧ ts - l < dns then (false, some l) else (true, some ts)
  | none => (true, some ts)

/-- Fold the debounce step over a list of event timestamps of one line,
returning the timestamps of the accepted transitions in order. -/
def debounceRun (dns : Nat) : Option Nat → List Nat → List Nat
  | _, [] => []
  | last, ts :: rest =>
    let r := debounceStep dns last ts
    if r.1 then ts :: debounceRun dns r.2 rest else debounceRun dns r.2 rest

/-! ### Hat recompute (recompute_hat lambda, lines 964-977)

  int x = (hat_right ? 1 : 0) + (hat_left ? -1 : 0);
  int y = (hat_down  ? 1 : 0) + (hat_up   ? -1 : 0);
  x = std::max(-1, std::min(1, x));
  y = std::max(-1, std::min(1, y));
-/

def recomputeHatX (hat_left hat_right : Bool) : Int :=
  max (-1) (min 1 ((if hat_right then (1 : Int) else 0) + (if hat_left then (-1 : Int) else 0)))

def recomputeHatY (hat_up hat_down : Bool) : Int :=
  max (-1) (min 1 ((if hat_down then (1 : Int) else 0) + (if hat_up then (-1 : Int) else 0)))

/-! ### Startup input-source check (main, lines 898-906)

  bool have_i2c_inputs = i2c_state.enabled
      && (!i2c_state.button_bits.empty() || !i2c_state.analogs.empty());
  if (watched.empty() && !have_i2c_inputs) { diagnostic; return 1; }
  else if (watched.empty() && have_i2c_inputs) { warning; }
-/

inductive StartupOutcome
  | fatalExit
  | warnContinue
  | proceed
deriving DecidableEq, Repr

/-- Exit status of the process at the startup check: some code = terminate,
none = keep running. -/
def startupExitCode : StartupOutcome → Option Nat
  | StartupOutcome.fatalExit => some 1
  | _ => none

/-- The have_i2c_inputs flag: peripheral enabled and at least one digital pin
mapping or analog axis configured. Arguments are the emptiness flags of
button_bits and analogs. -/
def haveI2cInputs (enabled buttonBitsEmpty analogsEmpty : Bool) : Bool :=
  enabled && (!buttonBitsEmpty || !analogsEmpty)

def startupCheck (watchedEmpty haveI2c : Bool) : StartupOutcome :=
  if watchedEmpty && !haveI2c then StartupOutcome.fatalExit
  else if watchedEmpty && haveI2c then StartupOutcome.warnContinue
  else StartupOutcome.proceed

/-! ### Actions and Linux input event code constants

Numeric values of the linux/input-event-codes.h constants used by the tool.
-/

def BTN_SOUTH : Nat := 0x130
def BTN_EAST : Nat := 0x131
def BTN_NORTH : Nat := 0x133
def BTN_WEST : Nat := 0x134
def BTN_TL : Nat := 0x136
def BTN_TR : Nat := 0x137
def BTN_TL2 : Nat := 0x138
def BTN_TR2 : Nat := 0x139
def BTN_SELECT : Nat := 0x13a
def BTN_START : Nat := 0x13b
def BTN_MODE : Nat := 0x13c
def BTN_THUMBL : Nat := 0x13d
def BTN_THUMBR : Nat := 0x13e
def BTN_0 : Nat := 0x100
def KEY_A : Nat := 30
def KEY_0 : Nat := 11
def KEY_1 : Nat := 2
def KEY_F1 : Nat := 59

inductive DeviceKind
  | gamepad
  | keyboard
deriving DecidableEq, Repr

inductive ActionType
  | buttonOrKey
  | hatDirection
deriving DecidableEq, Repr

inductive HatDirection
  | up
  | down
  | left
  | right
deriving DecidableEq, Repr

/-- Mirror of struct Action (lines 190-196). The code field is the EV_KEY
code for buttonOrKey actions; hat_dir is meaningful only for hatDirection. -/
structure Action where
  type : ActionType
  dev : DeviceKind
  code : Nat
  hat_dir : HatDirection
  token : String
deriving DecidableEq, Repr

/-! ### Analog auto-calibration (handle_i2c, lines 1048-1079)

Constants from lines 704-708. Samples and the calibration bounds are
uint16_t; narrowing casts are modelled with % 65536 where they occur.
-/

def kI2cAnalogValueCount : Nat := 5
def kI2cFrameBytes : Nat := (kI2cAnalogValueCount + 1) * 2
def kI2cAnalogAdcMax : Nat := 1023
def kI2cAnalogInitialSpan : Nat := 512
def kI2cAnalogMinSpan : Nat := 32

/-- Mirror of struct I2cAnalogAxisState (lines 676-684) with its member
initialisers. last_scaled is a C int initialised to -1, hence Int. -/
structure I2cAnalogAxisState where
  raw_index : Nat
  label : String
  abs_code : Nat
  min_seen : Nat := 65535
  max_seen : Nat := 0
  initialized : Bool := false
  last_scaled : Int := -1
deriving DecidableEq, Repr

/-- First-sample seeding (lines 1052-1066): a provisional window of width
kI2cAnalogInitialSpan around the sample, clamped to the ADC range, with the
new sample always inside and a minimum width floor on max_seen. -/
def seedAxis (a : I2cAnalogAxisState) (sample : Nat) : I2cAnalogAxisState :=
  let half := kI2cAnalogInitialSpan / 2
  let min_seed := if half < sample then (sample - half) % 65536 else 0
  let max_seed := (min_seed + kI2cAnalogInitialSpan) % 65536
  let p :=
    if kI2cAnalogAdcMax < max_seed then
      (if kI2cAnalogInitialSpan < kI2cAnalogAdcMax
         then (kI2cAnalogAdcMax - kI2cAnalogInitialSpan) % 65536
         else 0,
       kI2cAnalogAdcMax)
    else (min_seed, max_seed)
  let max_seed2 := if p.2 < sample then sample else p.2
  { a with initialized := true,
           min_seen := p.1,
           max_seen := max ((p.1 + kI2cAnalogMinSpan) % 65536) max_seed2 }

/-- Per-sample calibration update (lines 1052-1069): seed on the first ever
sample, then widen min_seen/max_seen monotonically to include the sample. -/
def updateAxis (a : I2cAnalogAxisState) (sample : Nat) : I2cAnalogAxisState :=
  let a1 := if a.initialized then a else seedAxis a sample
  { a1 with
    min_seen := if sample < a1.min_seen then sample else a1.min_seen,
    max_seen := if a1.max_seen < sample then sample else a1.max_seen }

/-- Scaling of a raw sample under calibration bounds (lines 1071-1079). The C
intermediates clamped and scaled are non-negative ints here (clamped is at
least min_seen), so Nat arithmetic coincides; the scaled-negative branch of
the final clamp is unreachable and the upper clamp remains. -/
def scaleOf (min_seen max_seen sample : Nat) : Nat :=
  let span0 := if min_seen < max_seen then max_seen - min_seen else 0
  let span := if span0 < kI2cAnalogMinSpan then kI2cAnalogMinSpan else span0
  let clamped := max min_seen (min max_seen sample)
  let scaled := (clamped - min_seen) * 100 / span
  if 100 < scaled then 100 else scaled

/-- Concrete initialized axis state used by the witness of C4. -/
def sampleAxis : I2cAnalogAxisState :=
  { raw_index := 0, label := "A0", abs_code := 0,
    min_seen := 244, max_seen := 756, initialized := true, last_scaled := -1 }

/-! ### Peripheral poller (handle_i2c lambda, lines 1017-1133)

The frame is kI2cFrameBytes bytes: five little-endian u16 analog samples
followed by one little-endian u16 digital bitmask. Reads are modelled by the
byte list actually returned; any length other than kI2cFrameBytes is the
wrong-byte-count failure. Writes to uinput and log lines are modelled as
explicit outputs of the step.
-/

/-- Mirror of get_u16_le (lines 113-115); the arguments are the two frame
bytes (uint8_t, hence the % 256 of the cast). -/
def get_u16_le (lo hi : Nat) : Nat := lo % 256 + (hi % 256) * 256

/-- Decode the six little-endian u16 words of a frame. -/
def decodeFrame (bytes : List Nat) : List Nat :=
  (List.range (kI2cAnalogValueCount + 1)).map
    (fun i => get_u16_le (bytes.getD (2 * i) 0) (bytes.getD (2 * i + 1) 0))

/-- One digital transition produced by the bitmask diff loop: the peripheral
pin (bit + 2), the derived press flag, and the mapped action (none for an
unmapped pin, which the code only logs). -/
structure Transition where
  pin : Nat
  press : Bool
  action : Option Action
deriving DecidableEq, Repr

/-- Lookup of button_bits by bit index (an unordered_map in the source). -/
def lookupBit (bb : List (Nat × Action)) (bit : Nat) : Option Action :=
  (bb.find? (fun p => p.1 == bit)).map Prod.snd

/-- Mirror of the bitmask diff loop (lines 1115-1131): for every bit 0..11
set in changed, read the new level from mask, derive press from the
active-low policy, and attach the mapped action if any. -/
def digitalTransitions (activeLow : Bool) (bb : List (Nat × Action))
    (changed mask : Nat) : List Transition :=
  (List.range 12).filterMap (fun bit =>
    if changed.testBit bit then
      let level_high := mask.testBit bit
      let press := if activeLow then !level_high else level_high
      some { pin := bit + 2, press := press, action := lookupBit bb bit }
    else none)

/-- Mirror of struct I2cState (lines 687-696), restricted to the fields the
poller logic reads or writes. -/
structure I2cState where
  enabled : Bool
  last_mask : Nat
  have_mask : Bool
  read_error_logged : Bool
  button_bits : List (Nat × Action)
  analogs : List I2cAnalogAxisState
deriving DecidableEq, Repr

/-- Observable outputs of one poll cycle: whether the wrong-byte-count
warning was printed, the (abs_code, scaled) axis updates written, and the
digital transitions produced. -/
structure I2cOutputs where
  warned : Bool
  axis_emits : List (Nat × Nat)
  transitions : List Transition
deriving DecidableEq, Repr

/-- Per-axis part of the analog loop (lines 1048-1098): skip out-of-range
raw_index, update calibration, scale, and emit only when the scaled value
changed from last_scaled. -/
def processAxis (a : I2cAnalogAxisState) (raw : List Nat) :
    I2cAnalogAxisState × Option (Nat × Nat) :=
  if a.raw_index < kI2cAnalogValueCount then
    let sample := raw.getD a.raw_index 0
    let a2 := updateAxis a sample
    let scaled := scaleOf a2.min_seen a2.max_seen sample
    if (scaled : Int) ≠ a2.last_scaled then
      ({ a2 with last_scaled := (scaled : Int) }, some (a2.abs_code, scaled))
    else (a2, none)
  else (a, none)

/-- The analog loop over all configured axes, in order. -/
def processAxes : List I2cAnalogAxisState → List Nat →
    List I2cAnalogAxisState × List (Nat × Nat)
  | [], _ => ([], [])
  | a :: rest, raw =>
    let r := processAxis a raw
    let s := processAxes rest raw
    (r.1 :: s.1,
     match r.2 with
     | some e => e :: s.2
     | none => s.2)

/-- One poll cycle of handle_i2c. hasGamepad models ufd_gamepad >= 0 (the
analog loop is gated on it, line 1047). -/
def i2cStep (activeLow hasGamepad : Bool) (st : I2cState) (bytes : List Nat) :
    I2cState × I2cOutputs :=
  if st.enabled = false then (st, ⟨false, [], []⟩)
  else if bytes.length ≠ kI2cFrameBytes then
    if st.read_error_logged = false then
      ({ st with read_error_logged := true }, ⟨true, [], []⟩)
    else (st, ⟨false, [], []⟩)
  else
    let st1 := { st with read_error_logged := false }
    let words := decodeFrame bytes
    let raw := words.take kI2cAnalogValueCount
    let mask := words.getD kI2cAnalogValueCount 0
    let ar :=
      if st1.analogs.isEmpty = false ∧ hasGamepad = true
        then processAxes st1.analogs raw
        else (st1.analogs, [])
    let changed := if st1.have_mask then mask ^^^ st1.last_mask else 0
    let st2 := { st1 with analogs := ar.1, last_mask := mask, have_mask := true }
    let trans :=
      if changed ≠ 0 then digitalTransitions activeLow st1.button_bits changed mask
      else []
    (st2, ⟨false, ar.2, trans⟩)

/-- Fold of poll cycles, collecting the outputs of each cycle. -/
def i2cRun (activeLow hasGamepad : Bool) :
    I2cState → List (List Nat) → I2cState × List I2cOutputs
  | st, [] => (st, [])
  | st, bytes :: rest =>
    let r := i2cStep activeLow hasGamepad st bytes
    let s := i2cRun activeLow hasGamepad r.1 rest
    (s.1, r.2 :: s.2)

/-- Concrete peripheral state used by the witnesses: enabled, no baseline
mask yet, nothing logged, pin D5 (bit 3) mapped to the gamepad BTN_SOUTH
action, no analog axes. -/
def dPin5Action : Action :=
  { type := ActionType.buttonOrKey, dev := DeviceKind.gamepad,
    code := BTN_SOUTH, hat_dir := HatDirection.up, token := "BTN_SOUTH" }

def freshI2cState : I2cState :=
  { enabled := true, last_mask := 0, have_mask := false,
    read_error_logged := false, button_bits := [(3, dPin5Action)], analogs := [] }

/-- A 12-byte frame whose digital mask has bit 3 set (bytes 10-11 encode 8). -/
def frameBit3 : List Nat := [0, 0, 0, 0, 0, 0, 0, 0, 0, 0, 8, 0]

def frameZero : List Nat := [0, 0, 0, 0, 0, 0, 0, 0, 0, 0, 0, 0]

/-! ### Auto-assignment of unmapped offsets (lines 606-634 and 819-841)

next_auto_button_code walks a fixed 13-entry button table, then BTN_0..BTN_9,
then wraps modulo 10 over BTN_0..BTN_9 forever. next_auto_key_code walks
KEY_A..KEY_Z, the digit keys, KEY_F1..KEY_F12, then wraps modulo 26 over the
letters. The assignment loop in main tries successive codes, skipping ones
already used, and gives up with a duplicate once the shared index exceeds
2000.
-/

def kAutoButtonList : List Nat :=
  [BTN_SOUTH, BTN_EAST, BTN_NORTH, BTN_WEST,
   BTN_TL, BTN_TR, BTN_TL2, BTN_TR2,
   BTN_SELECT, BTN_START, BTN_THUMBL, BTN_THUMBR, BTN_MODE]

def nextAutoButtonCode (idx : Nat) : Nat :=
  if idx < kAutoButtonList.length then kAutoButtonList.getD idx 0
  else
    let j := idx - kAutoButtonList.length
    if j ≤ 9 then BTN_0 + j
    else BTN_0 + (j % 10)

def nextAutoKeyCode (idx : Nat) : Nat :=
  if idx < 26 then KEY_A + idx
  else
    let i2 := idx - 26
    if i2 < 10 then (if i2 = 0 then KEY_0 else KEY_1 + (i2 - 1))
    else
      let i3 := i2 - 10
      if i3 < 12 then KEY_F1 + i3
      else KEY_A + (i3 % 26)

/-- The inner for(;;) loop of the assignment (lines 826-830 / 834-838): try
code = next(idx), idx increments each try; stop on a fresh code (inserting it
into the used set) or once idx exceeds 2000 (keeping the duplicate code).
The fuel argument makes the recursion structural; every call site passes
fuel = 2001 - idx, which the cap check keeps ahead of the recursion, so the
fuel-0 branch is never reached from those call sites. -/
def pickCodeFuel (next : Nat → Nat) : Nat → List Nat → Nat → Nat × List Nat × Nat
  | 0, used, idx => (next idx, used, idx + 1)
  | fuel + 1, used, idx =>
    let code := next idx
    let idx2 := idx + 1
    if code ∈ used then
      if 2000 < idx2 then (code, used, idx2)
      else pickCodeFuel next fuel used idx2
    else (code, code :: used, idx2)

def pickCode (next : Nat → Nat) (used : List Nat) (idx : Nat) : Nat × List Nat × Nat :=
  pickCodeFuel next (2001 - idx) used idx

/-- The outer loop over candidate offsets (lines 820-841): skip offsets with
an explicit mapping, otherwise pick the next fresh code. Returns the list of
(offset, code) assignments plus the final used set and index. -/
def autoAssign (next : Nat → Nat) (mapped : Nat → Bool) :
    List Nat → List Nat → Nat → List (Nat × Nat) × List Nat × Nat
  | [], used, idx => ([], used, idx)
  | off :: rest, used, idx =>
    if mapped off then autoAssign next mapped rest used idx
    else
      let r := pickCode next used idx
      let s := autoAssign next mapped rest r.2.1 r.2.2
      ((off, r.1) :: s.1, s.2)

/-! ### Lemmas and claim theorems -/

lemma debounceStep_accept (dns l ts : Nat) (h : ¬ (0 < dns ∧ l ≤ ts ∧ ts - l < dns)) :
    debounceStep dns (some l) ts = (true, some ts) := by
  simp [debounceStep, h]

lemma debounceStep_reject (dns l ts : Nat) (h : 0 < dns ∧ l ≤ ts ∧ ts - l < dns) :
    debounceStep dns (some l) ts = (false, some l) := by
  simp [debounceStep, h]

lemma chain_le_of_le {l t : Nat} {rest : List Nat} (hlt : l ≤ t)
    (h : List.Chain (· ≤ ·) t rest) : List.Chain (· ≤ ·) l rest := by
  cases h with
  | nil => exact List.Chain.nil
  | cons hab hrest => exact List.Chain.cons (le_trans hlt hab) hrest

/-- Core debounce invariant: starting from an accepted timestamp l, on a
monotone stream every accepted timestamp is at least dns later than the
previous accepted one. -/
lemma debounceRun_chain (dns : Nat) (hd : 0 < dns) :
    ∀ (ts : List Nat) (l : Nat), List.Chain (· ≤ ·) l ts →
      List.Chain' (fun a b => a + dns ≤ b) (l :: debounceRun dns (some l) ts) := by
  intro ts
  induction ts with
  | nil =>
    intro l _
    simp [debounceRun]
  | cons t rest ih =>
    intro l hchain
    cases hchain with
    | cons hlt hrest =>
      by_cases hrej : t - l < dns
      · have hstep := debounceStep_reject dns l t ⟨hd, hlt, hrej⟩
        have : debounceRun dns (some l) (t :: rest) = debounceRun dns (some l) rest := by
          simp [debounceRun, hstep]
        rw [this]
        exact ih l (chain_le_of_le hlt hrest)
      · have hstep := debounceStep_accept dns l t (by
          intro hcontra
          exact hrej hcontra.2.2)
        have : debounceRun dns (some l) (t :: rest) = t :: debounceRun dns (some t) rest := by
          simp [debounceRun, hstep]
        rw [this]
        refine List.chain'_cons.mpr ⟨by omega, ?_⟩
        exact ih t hrest

/-- C3 (amended): with a positive debounce window and hardware timestamps
arriving in non-decreasing order, any two consecutive accepted transitions on
one line differ by at least the window; and a pair of events closer than the
window yields exactly one accepted transition. -/
theorem debounce_consecutive_gap (dns : Nat) (hd : 0 < dns) :
    (∀ ts : List Nat, List.Chain' (· ≤ ·) ts →
       List.Chain' (fun a b => a + dns ≤ b) (debounceRun dns none ts))
    ∧ (∀ t1 t2 : Nat, t1 ≤ t2 → t2 - t1 < dns →
       debounceRun dns none [t1, t2] = [t1]) := by
  constructor
  · intro ts hts
    cases ts with
    | nil => simp [debounceRun]
    | cons t rest =>
      have hfirst : debounceRun dns none (t :: rest) = t :: debounceRun dns (some t) rest := by
        simp [debounceRun, debounceStep]
      rw [hfirst]
      exact debounceRun_chain dns hd rest t hts
  · intro t1 t2 h12 hclose
    have hstep2 := debounceStep_reject dns t1 t2 ⟨hd, h12, hclose⟩
    have h1 : debounceRun dns none [t1, t2] = t1 :: debounceRun dns (some t1) [t2] := by
      simp [debounceRun, debounceStep]
    have h2 : debounceRun dns (some t1) [t2] = [] := by
      simp [debounceRun, hstep2]
    rw [h1, h2]

/-- C3 counterexample: the claim as stated quantifies over arbitrary event
pairs. With window 1000 ns, the pair of events with timestamps 1000 then 500
is closer than the window (they differ by 500), yet BOTH are accepted,
because the second timestamp is earlier than the stored record and the code
only rejects when ts is at least the stored timestamp. -/
theorem debounce_pair_counterexample :
    debounceRun 1000 none [1000, 500] = [1000, 500]
    ∧ 1000 - 500 < 1000
    ∧ (debounceRun 1000 none [1000, 500]).length ≠ 1 := by
  refine ⟨by decide, by decide, by decide⟩

/-- C10: an event whose timestamp is strictly earlier than the stored record
is accepted and overwrites the record with the earlier timestamp; rejection
happens exactly when the window is positive, the new timestamp is at least
the stored one, and their difference is below the window. -/
theorem debounce_early_timestamp (dns l ts : Nat) :
    (ts < l → debounceStep dns (some l) ts = (true, some ts))
    ∧ ((debounceStep dns (some l) ts).1 = false ↔ 0 < dns ∧ l ≤ ts ∧ ts - l < dns) := by
  constructor
  · intro hlt
    apply debounceStep_accept
    intro hcontra
    omega
  · by_cases hc : 0 < dns ∧ l ≤ ts ∧ ts - l < dns
    · simp [debounceStep, hc]
    · simp [debounceStep, hc]

/-- Witness for debounce_early_timestamp at window 1000, record 1000, event 500. -/
theorem debounce_early_timestamp_witness :
    debounceStep 1000 (some 1000) 500 = (true, some 500) :=
  (debounce_early_timestamp 1000 1000 500).1 (by decide)

/-- Witness for debounce_consecutive_gap at window 1000 on concrete streams. -/
theorem debounce_consecutive_gap_witness :
    List.Chain' (fun a b => a + 1000 ≤ b) (debounceRun 1000 none [0, 500, 1200])
    ∧ debounceRun 1000 none [100, 600] = [100] :=
  ⟨(debounce_consecutive_gap 1000 (by decide)).1 [0, 500, 1200]
     (by simp [List.chain'_cons]),
   (debounce_consecutive_gap 1000 (by decide)).2 100 600 (by decide) (by decide)⟩

/-- C6: for every combination of the four directional press-states the
recomputed hat components are in the set of values -1, 0, 1; pressing both
directions of one axis at once gives 0 on that axis. -/
theorem hat_components_clamped :
    (∀ u d l r : Bool,
       (recomputeHatX l r = -1 ∨ recomputeHatX l r = 0 ∨ recomputeHatX l r = 1)
       ∧ (recomputeHatY u d = -1 ∨ recomputeHatY u d = 0 ∨ recomputeHatY u d = 1))
    ∧ recomputeHatY true true = 0
    ∧ recomputeHatX true true = 0 := by
  refine ⟨?_, by decide, by decide⟩
  decide

/-- C7: zero acquired GPIO lines with no peripheral inputs is fatal with a
non-zero exit status; zero acquired GPIO lines with at least one peripheral
input only warns and continues. The last conjunct characterises when
peripheral inputs count as configured. -/
theorem startup_zero_lines :
    startupCheck true false = StartupOutcome.fatalExit
    ∧ startupExitCode (startupCheck true false) = some 1
    ∧ (1 : Nat) ≠ 0
    ∧ startupCheck true true = StartupOutcome.warnContinue
    ∧ startupExitCode (startupCheck true true) = none
    ∧ (∀ e b a : Bool,
        haveI2cInputs e b a = true ↔ e = true ∧ (b = false ∨ a = false)) := by
  refine ⟨by decide, by decide, by decide, by decide, by decide, by decide⟩

/-- C4: once initialized, a calibration update never increases min_seen and
never decreases max_seen, and the updated window contains the new sample. -/
theorem calibration_window_widens (a : I2cAnalogAxisState) (s : Nat)
    (h : a.initialized = true) :
    (updateAxis a s).min_seen ≤ a.min_seen
    ∧ a.max_seen ≤ (updateAxis a s).max_seen
    ∧ (updateAxis a s).min_seen ≤ s
    ∧ s ≤ (updateAxis a s).max_seen := by
  simp only [updateAxis, h, if_true]
  refine ⟨?_, ?_, ?_, ?_⟩ <;> dsimp only <;> split_ifs <;> omega

/-- Witness for calibration_window_widens on a concrete initialized axis. -/
theorem calibration_window_widens_witness :
    (updateAxis sampleAxis 10).min_seen ≤ sampleAxis.min_seen
    ∧ sampleAxis.max_seen ≤ (updateAxis sampleAxis 10).max_seen
    ∧ (updateAxis sampleAxis 10).min_seen ≤ 10
    ∧ 10 ≤ (updateAxis sampleAxis 10).max_seen :=
  calibration_window_widens sampleAxis 10 rfl

/-- C5: for fixed calibration bounds the scaling is monotone non-decreasing
on raw samples inside the window, and every scaled output is within 0..100. -/
theorem scaling_monotone (mn mx r1 r2 : Nat)
    (h1 : mn ≤ r1) (h12 : r1 < r2) (h2 : r2 ≤ mx) :
    scaleOf mn mx r1 ≤ scaleOf mn mx r2
    ∧ (∀ s : Nat, scaleOf mn mx s ≤ 100) := by
  constructor
  · have hr1mx : r1 ≤ mx := le_of_lt (lt_of_lt_of_le h12 h2)
    have hmn2 : mn ≤ r2 := le_trans h1 (le_of_lt h12)
    have hc1 : max mn (min mx r1) = r1 := by omega
    have hc2 : max mn (min mx r2) = r2 := by omega
    simp only [scaleOf, hc1, hc2]
    have hm : (r1 - mn) * 100 / (if (if mn < mx then mx - mn else 0) < kI2cAnalogMinSpan
                 then kI2cAnalogMinSpan else if mn < mx then mx - mn else 0)
        ≤ (r2 - mn) * 100 / (if (if mn < mx then mx - mn else 0) < kI2cAnalogMinSpan
                 then kI2cAnalogMinSpan else if mn < mx then mx - mn else 0) := by
      apply Nat.div_le_div_right
      apply Nat.mul_le_mul_right
      omega
    split_ifs at hm ⊢ <;> omega
  · intro s
    simp only [scaleOf]
    split_ifs <;> omega

/-- Witness for scaling_monotone with bounds 10..200 on samples 50 and 60. -/
theorem scaling_monotone_witness :
    scaleOf 10 200 50 ≤ scaleOf 10 200 60 ∧ (∀ s : Nat, scaleOf 10 200 s ≤ 100) :=
  scaling_monotone 10 200 50 60 (by decide) (by decide) (by decide)

lemma i2cStep_bad_logged (activeLow hasGamepad : Bool) (st : I2cState)
    (bytes : List Nat) (hen : st.enabled = true)
    (hbad : bytes.length ≠ kI2cFrameBytes) (hlog : st.read_error_logged = true) :
    i2cStep activeLow hasGamepad st bytes = (st, ⟨false, [], []⟩) := by
  simp [i2cStep, hen, hbad, hlog]

lemma i2cRun_all_bad_logged (activeLow hasGamepad : Bool) :
    ∀ (frames : List (List Nat)) (st : I2cState), st.enabled = true →
      st.read_error_logged = true →
      (∀ b ∈ frames, b.length ≠ kI2cFrameBytes) →
      ∀ o ∈ (i2cRun activeLow hasGamepad st frames).2, o.warned = false := by
  intro frames
  induction frames with
  | nil => intro st _ _ _ o ho; simp [i2cRun] at ho
  | cons b rest ih =>
    intro st hen hlog hbad o ho
    have hstep := i2cStep_bad_logged activeLow hasGamepad st b hen
      (hbad b (by simp)) hlog
    simp only [i2cRun, hstep, List.mem_cons] at ho
    rcases ho with ho | ho
    · rw [ho]
    · exact ih st hen hlog (fun x hx => hbad x (by simp [hx])) o ho

/-- C9: a wrong-byte-count read is skipped with no state change beyond the
log-suppression flag and with no emissions; it is logged exactly once across
consecutive identical failures; a successful read resets the suppression. -/
theorem bad_read_skipped_logged_once (activeLow hasGamepad : Bool)
    (st : I2cState) (bytes : List Nat)
    (hen : st.enabled = true) (hbad : bytes.length ≠ kI2cFrameBytes) :
    (st.read_error_logged = false →
       i2cStep activeLow hasGamepad st bytes
         = ({ st with read_error_logged := true }, ⟨true, [], []⟩))
    ∧ (st.read_error_logged = true →
       i2cStep activeLow hasGamepad st bytes = (st, ⟨false, [], []⟩))
    ∧ (∀ goodBytes : List Nat, goodBytes.length = kI2cFrameBytes →
       (i2cStep activeLow hasGamepad st goodBytes).1.read_error_logged = false)
    ∧ (st.read_error_logged = false → ∀ n : Nat,
       ((i2cRun activeLow hasGamepad st (List.replicate (n + 1) bytes)).2.filter
          (fun o => o.warned)).length = 1) := by
  refine ⟨?_, ?_, ?_, ?_⟩
  · intro hlog
    simp [i2cStep, hen, hbad, hlog]
  · intro hlog
    exact i2cStep_bad_logged activeLow hasGamepad st bytes hen hbad hlog
  · intro goodBytes hlen
    simp [i2cStep, hen, hlen, kI2cFrameBytes]
  · intro hlog n
    have hstep : i2cStep activeLow hasGamepad st bytes
        = ({ st with read_error_logged := true }, ⟨true, [], []⟩) := by
      simp [i2cStep, hen, hbad, hlog]
    have hrest := i2cRun_all_bad_logged activeLow hasGamepad
      (List.replicate n bytes) { st with read_error_logged := true }
      (by simpa using hen) rfl (by
        intro b hb
        rcases List.eq_of_mem_replicate hb with rfl
        exact hbad)
    have hnil : List.filter (fun o => o.warned)
        (i2cRun activeLow hasGamepad { st with read_error_logged := true }
          (List.replicate n bytes)).2 = [] := by
      rw [List.filter_eq_nil_iff]
      intro o ho
      simp [hrest o ho]
    simp only [List.replicate_succ, i2cRun, hstep]
    simp [List.filter_cons, hnil]

/-- C8: the first successfully decoded frame after start produces no digital
transitions, whatever the bitmask holds; it only records the mask as the diff
baseline for the next frame. -/
theorem first_frame_no_transitions (activeLow hasGamepad : Bool)
    (st : I2cState) (bytes : List Nat)
    (hen : st.enabled = true) (hlen : bytes.length = kI2cFrameBytes)
    (hfm : st.have_mask = false) :
    (i2cStep activeLow hasGamepad st bytes).2.transitions = []
    ∧ (i2cStep activeLow hasGamepad st bytes).1.have_mask = true
    ∧ (i2cStep activeLow hasGamepad st bytes).1.last_mask
        = (decodeFrame bytes).getD kI2cAnalogValueCount 0 := by
  refine ⟨?_, ?_, ?_⟩ <;> simp [i2cStep, hen, hlen, hfm, kI2cFrameBytes]

/-- Witness for bad_read_skipped_logged_once with an empty (0-byte) read. -/
theorem bad_read_skipped_logged_once_witness :
    i2cStep true true freshI2cState []
      = ({ freshI2cState with read_error_logged := true }, ⟨true, [], []⟩) :=
  (bad_read_skipped_logged_once true true freshI2cState [] rfl (by decide)).1 rfl

/-- Witness for first_frame_no_transitions on a frame with a non-zero mask. -/
theorem first_frame_no_transitions_witness :
    (i2cStep true true freshI2cState frameBit3).2.transitions = []
    ∧ (i2cStep true true freshI2cState frameBit3).1.have_mask = true
    ∧ (i2cStep true true freshI2cState frameBit3).1.last_mask
        = (decodeFrame frameBit3).getD kI2cAnalogValueCount 0 :=
  first_frame_no_transitions true true freshI2cState frameBit3 rfl (by decide) rfl

/-- C1 counterexample: mapping D5 -> BTN_SOUTH, active-low, two consecutively
decoded frames whose bitmask bit 3 goes 0 to 1. The poller emits exactly one
transition for the pin, routed to the BTN_SOUTH action, but it is a RELEASE
(press = false): with active-low polarity a high level means released, so no
press (DOWN) transition is emitted at all. -/
theorem i2c_bit_rise_press_counterexample :
    ((i2cStep true true (i2cStep true true freshI2cState frameZero).1 frameBit3).2.transitions
       = [{ pin := 5, press := false, action := some dPin5Action }])
    ∧ (((i2cStep true true (i2cStep true true freshI2cState frameZero).1
          frameBit3).2.transitions.filter (fun t => t.press)).length = 0) := by
  refine ⟨by decide, by decide⟩

/-- C1 (amended): with pin D5 mapped to BTN_SOUTH and active-low polarity, a
bitmask in which bit 3 flips from 0 to 1 relative to the previous frame (all
other bits unchanged) yields exactly one RELEASE (UP) transition routed to
the gamepad BTN_SOUTH action for that pin. -/
theorem i2c_bit_rise_release (m0 m1 : Nat)
    (h0 : m0.testBit 3 = false) (h1 : m1.testBit 3 = true)
    (hsame : ∀ b, b < 12 → b ≠ 3 → m1.testBit b = m0.testBit b) :
    digitalTransitions true [(3, dPin5Action)] (m1 ^^^ m0) m1
      = [{ pin := 5, press := false, action := some dPin5Action }] := by
  have hx : ∀ b, b < 12 → b ≠ 3 → (m1 ^^^ m0).testBit b = false := by
    intro b hb hne
    rw [Nat.testBit_xor, hsame b hb hne]
    exact Bool.xor_self _
  have h3 : (m1 ^^^ m0).testBit 3 = true := by
    rw [Nat.testBit_xor, h1, h0]
    rfl
  have hr : List.range 12 = [0, 1, 2, 3, 4, 5, 6, 7, 8, 9, 10, 11] := by decide
  rw [digitalTransitions, hr]
  simp only [List.filterMap_cons, List.filterMap_nil,
    hx 0 (by omega) (by omega), hx 1 (by omega) (by omega),
    hx 2 (by omega) (by omega), h3, hx 4 (by omega) (by omega),
    hx 5 (by omega) (by omega), hx 6 (by omega) (by omega),
    hx 7 (by omega) (by omega), hx 8 (by omega) (by omega),
    hx 9 (by omega) (by omega), hx 10 (by omega) (by omega),
    hx 11 (by omega) (by omega)]
  simp [lookupBit, h1]

/-- Witness for i2c_bit_rise_release with previous mask 0 and new mask 8. -/
theorem i2c_bit_rise_release_witness :
    digitalTransitions true [(3, dPin5Action)] (8 ^^^ 0) 8
      = [{ pin := 5, press := false, action := some dPin5Action }] :=
  i2c_bit_rise_release 0 8 (by decide) (by decide) (by decide)

lemma pickCode_fresh (next : Nat → Nat) (used : List Nat) (idx : Nat)
    (hle : idx ≤ 2000) (h : next idx ∉ used) :
    pickCode next used idx = (next idx, next idx :: used, idx + 1) := by
  have hf : 2001 - idx = (2000 - idx) + 1 := by omega
  rw [pickCode, hf]
  simp [pickCodeFuel, h]

/-- When every pick is fresh, the loop assigns codes next idx, next (idx+1),
... to the unmapped offsets in order. The used set is characterised by
membership to stay stable under consing. -/
lemma autoAssign_fresh (next : Nat → Nat) (N : Nat) (hN : N ≤ 2000)
    (hinj : ∀ i, i < N → ∀ j, j < N → next i = next j → i = j) :
    ∀ (cs : List Nat) (idx : Nat) (used : List Nat),
      idx + cs.length ≤ N →
      (∀ c, c ∈ used ↔ ∃ j, j < idx ∧ next j = c) →
      (autoAssign next (fun _ => false) cs used idx).1
        = cs.zip ((List.range' idx cs.length).map next) := by
  intro cs
  induction cs with
  | nil =>
    intro idx used _ _
    simp [autoAssign]
  | cons off rest ih =>
    intro idx used hlen hused
    have hidxN : idx < N := by
      simp only [List.length_cons] at hlen
      omega
    have hfresh : next idx ∉ used := by
      intro hmem
      rcases (hused _).1 hmem with ⟨j, hj, hje⟩
      have := hinj j (lt_trans hj hidxN) idx hidxN hje
      omega
    have hpick := pickCode_fresh next used idx (by omega) hfresh
    have hinv : ∀ c, c ∈ next idx :: used ↔ ∃ j, j < idx + 1 ∧ next j = c := by
      intro c
      simp only [List.mem_cons]
      constructor
      · rintro (rfl | hc)
        · exact ⟨idx, by omega, rfl⟩
        · rcases (hused c).1 hc with ⟨j, hj, hje⟩
          exact ⟨j, by omega, hje⟩
      · rintro ⟨j, hj, hje⟩
        by_cases hj2 : j = idx
        · subst hj2
          exact Or.inl hje.symm
        · exact Or.inr ((hused c).2 ⟨j, by omega, hje⟩)
    have hlen2 : (idx + 1) + rest.length ≤ N := by
      simp only [List.length_cons] at hlen
      omega
    have hrec := ih (idx + 1) (next idx :: used) hlen2 hinv
    simp only [autoAssign, Bool.false_eq_true, if_false, hpick]
    simp only [List.length_cons, List.range'_succ, List.map_cons, List.zip_cons_cons]
    rw [hrec]

lemma nextAutoButtonCode_inj :
    ∀ i, i < 23 → ∀ j, j < 23 → nextAutoButtonCode i = nextAutoButtonCode j → i = j := by
  decide

lemma nextAutoKeyCode_inj :
    ∀ i, i < 48 → ∀ j, j < 48 → nextAutoKeyCode i = nextAutoKeyCode j → i = j := by
  decide

lemma autoAssign_nodup (next : Nat → Nat) (N : Nat) (hN : N ≤ 2000)
    (hinj : ∀ i, i < N → ∀ j, j < N → next i = next j → i = j)
    (cs : List Nat) (hlen : cs.length ≤ N) :
    ((autoAssign next (fun _ => false) cs [] 0).1.map Prod.fst = cs)
    ∧ ((autoAssign next (fun _ => false) cs [] 0).1.map Prod.snd).Nodup := by
  have hassign := autoAssign_fresh next N hN hinj cs 0 [] (by omega)
    (by
      intro c
      simp)
  have hlens : ((List.range' 0 cs.length).map next).length = cs.length := by
    simp
  constructor
  · rw [hassign]
    exact List.map_fst_zip cs _ (by omega)
  · rw [hassign]
    rw [List.map_snd_zip cs _ (by omega)]
    apply List.Nodup.map_on
    · intro x hx y hy hxy
      have hx2 := List.mem_range'_1.mp hx
      have hy2 := List.mem_range'_1.mp hy
      exact hinj x (by omega) y (by omega) hxy
    · exact List.nodup_range' _ _

/-- C2 (amended): auto-assignment in button-cycle or key-cycle mode over a
duplicate-free candidate list, starting with no explicit mappings and no
pre-used codes, assigns every candidate and never assigns the same code
twice, provided the number of candidates does not exceed the number of
distinct codes of the cyclic sequence: 23 in button mode (13 named buttons
plus BTN_0..BTN_9) and 48 in key mode (26 letters, 10 digits, 12 function
keys). Beyond that the sequence is exhausted and the iteration cap falls
back to modulo-wrapped reuse. -/
theorem auto_assign_unique (cs : List Nat) (_hnd : cs.Nodup) :
    (cs.length ≤ 23 →
       ((autoAssign nextAutoButtonCode (fun _ => false) cs [] 0).1.map Prod.fst = cs
        ∧ ((autoAssign nextAutoButtonCode (fun _ => false) cs [] 0).1.map Prod.snd).Nodup))
    ∧ (cs.length ≤ 48 →
       ((autoAssign nextAutoKeyCode (fun _ => false) cs [] 0).1.map Prod.fst = cs
        ∧ ((autoAssign nextAutoKeyCode (fun _ => false) cs [] 0).1.map Prod.snd).Nodup)) := by
  constructor
  · intro hl
    exact autoAssign_nodup nextAutoButtonCode 23 (by omega) nextAutoButtonCode_inj cs hl
  · intro hl
    exact autoAssign_nodup nextAutoKeyCode 48 (by omega) nextAutoKeyCode_inj cs hl

/-- Witness for auto_assign_unique on three candidate offsets. -/
theorem auto_assign_unique_witness :
    ((autoAssign nextAutoButtonCode (fun _ => false) [2, 5, 9] [] 0).1.map Prod.fst = [2, 5, 9]
     ∧ ((autoAssign nextAutoButtonCode (fun _ => false) [2, 5, 9] [] 0).1.map Prod.snd).Nodup)
    ∧ ((autoAssign nextAutoKeyCode (fun _ => false) [2, 5, 9] [] 0).1.map Prod.fst = [2, 5, 9]
     ∧ ((autoAssign nextAutoKeyCode (fun _ => false) [2, 5, 9] [] 0).1.map Prod.snd).Nodup) :=
  ⟨(auto_assign_unique [2, 5, 9] (by decide)).1 (by decide),
   (auto_assign_unique [2, 5, 9] (by decide)).2 (by decide)⟩

set_option maxRecDepth 10000 in
/-- C2 counterexample: 24 candidate offsets form a set larger than the fixed
13-entry button table and far smaller than the 2000 iteration cap, yet in
button mode the offsets 20 and 23 both receive code 263 (BTN_7): after all
23 distinct codes of the cyclic sequence are used, the cap forces a
modulo-wrapped duplicate, so the assigned codes are not pairwise distinct. -/
theorem auto_assign_duplicate_counterexample :
    (List.range 24).Nodup
    ∧ kAutoButtonList.length < (List.range 24).length
    ∧ (List.range 24).length < 2000
    ∧ ((20, 263) ∈ (autoAssign nextAutoButtonCode (fun _ => false) (List.range 24) [] 0).1)
    ∧ ((23, 263) ∈ (autoAssign nextAutoButtonCode (fun _ => false) (List.range 24) [] 0).1)
    ∧ ¬ ((autoAssign nextAutoButtonCode (fun _ => false)
          (List.range 24) [] 0).1.map Prod.snd).Nodup := by
  refine ⟨by decide, by decide, by decide, by decide, by decide, by decide⟩

end GpioToUinput
